import Mathlib

/-!
# Verification of the webscrap post-ranking and competition-tagging pipeline

Shallow embedding of the core pipeline of `aws_scraper.py` and `dashboard.py`:
the competition classifier (`is_competition_post`, `detect_competition`), the
ranking engine of a refresh episode in `dashboard.run_scraper` (stable
descending sort by `likes_count`, then deduplication by `id`), the timestamp
normalizer (`format_timestamp`), the retry behaviour of `fetch_feed_content`,
the tracked-post neighbourhood computation of `dashboard.api_data`
(`likes_to_climb`), and the refresh-scheduler state machine
(`run_scraper` guard and `api_refresh`).
-/

namespace WebScrap

/-! ## Python string containment

Python's `needle in hay` over strings: a character-level infix test, where the
empty string is a substring of every string. Lean 4.14 has no executable
`List.isInfixOf`, so we define the check directly over the character lists. -/

/-- `needle` is a prefix of `hay` (character lists). -/
def isPrefixB : List Char → List Char → Bool
  | [], _ => true
  | _ :: _, [] => false
  | c :: cs, d :: ds => c = d && isPrefixB cs ds

/-- `needle` occurs as a contiguous infix of `hay` (character lists). -/
def isInfixB (n : List Char) : List Char → Bool
  | [] => isPrefixB n []
  | c :: t => isPrefixB n (c :: t) || isInfixB n t

/-- Python `needle in hay` on strings. -/
def pyIn (needle hay : String) : Bool := isInfixB needle.data hay.data

/-- ASCII lower-casing of one character (as in `Char.toLower`). -/
def lowerChar (c : Char) : Char :=
  if 'A' ≤ c ∧ c ≤ 'Z' then Char.ofNat (c.toNat + 32) else c

/-- Python `s.lower()`.  All configuration strings and every string the
classifier compares against them are ASCII, where this agrees with Python;
we define it over the character list so the kernel can evaluate it (the core
`String.toLower` is well-founded recursion over byte positions and does not
reduce). -/
def lowerS (s : String) : String := ⟨s.data.map lowerChar⟩

/-! ## Configuration constants (from `aws_scraper.py` / `dashboard.py`) -/

def BASE_URL : String := "https://builder.aws.com"

/-- The tracked post's locator (`HIGHLIGHT_POST_URI` in `aws_scraper.py`). -/
def HIGHLIGHT_POST_URI : String :=
  "/content/3AAMRb7lRzAJnleldfYBBtfM1WG/aideas-transforming-healthcare-into-ai-powered-wellness-companion"

/-- `COMPETITION_KEYWORDS` in `aws_scraper.py`. -/
def COMPETITION_KEYWORDS : List String :=
  ["AIdeas", "AI ideas", "healthcare", "wellness", "competition",
   "Kiro", "Mimamori", "wellness companion", "AI-powered wellness",
   "wellness avatar", "health AI", "medical AI"]

/-- `COMP_KEYWORDS` in `dashboard.py` (already lower-case there). -/
def COMP_KEYWORDS : List String :=
  ["aideas", "ai ideas", "healthcare", "wellness", "competition",
   "kiro", "mimamori", "wellness companion", "ai-powered wellness",
   "wellness avatar", "health ai", "medical ai", "satya",
   "mindbridge", "fitlens", "vantedge", "preflight", "anukriti",
   "orpheus", "studybuddy", "renew", "nova", "serverless"]

/-! ## Data model

A post record as the pipeline reads it.  A missing `id`/`title`/`uri` is read
through Python's `post.get(key, "")`, so a missing field and the empty string
are indistinguishable to the code under study; we model both as `""`.
`likes_count` defaults to `0` when absent (`post.get("likes_count", 0)`).
`is_competition` is `none` when the key is absent or `None` in the dict. -/

structure Post where
  id : String
  title : String
  uri : String
  likes_count : Nat
  is_competition : Option Bool := none
  deriving DecidableEq

/-! ## Competition classifier -/

/-- `aws_scraper.is_competition_post`.  Note that the source binds
`uri = post.get("id", "").lower()` — the variable named `uri` holds the (lower
cased) **id** field; the post's `uri` field is never consulted.  The
`id`-in-locator direction is checked on the verbatim (not lower-cased) id. -/
def is_competition_post (post : Post) : Bool :=
  let title := lowerS post.title
  let uri := lowerS post.id
  if HIGHLIGHT_POST_URI ≠ "" &&
      (pyIn (lowerS HIGHLIGHT_POST_URI) uri || pyIn post.id HIGHLIGHT_POST_URI) then
    true
  else if COMPETITION_KEYWORDS.any (fun kw => pyIn (lowerS kw) title) then
    true
  else
    false

/-- `dashboard.detect_competition`: fill in `is_competition` from the broad
keyword list if it is not already set. -/
def detect_competition (post : Post) : Post :=
  match post.is_competition with
  | some b => { post with is_competition := some b }
  | none =>
      { post with
        is_competition :=
          some (COMP_KEYWORDS.any (fun kw => pyIn kw (lowerS post.title))) }

/-! ## Ranking engine (`dashboard.run_scraper`, lines 133–146)

`sorted(all_posts, key=lambda x: x.get("likes_count", 0), reverse=True)` is a
stable descending sort: ties keep their input order.  We realize it by an
insertion sort in which an element is inserted *before* the first element whose
count is less than or equal to its own — since the element being inserted comes
earlier in the input than everything already sorted, this is exactly the stable
order, and a stable descending sort is extensionally unique. -/

/-- Insert `x` before the first element with `likes_count ≤ x.likes_count`. -/
def insLikes (x : Post) : List Post → List Post
  | [] => [x]
  | y :: ys =>
      if y.likes_count ≤ x.likes_count then x :: y :: ys
      else y :: insLikes x ys

/-- Stable sort, descending by `likes_count` (Python
`sorted(..., key=likes_count, reverse=True)`). -/
def sortByLikesDesc : List Post → List Post
  | [] => []
  | x :: xs => insLikes x (sortByLikesDesc xs)

/-- The dedup loop of `run_scraper`: walk the sorted list keeping a `seen` set
of ids; a post is kept iff its id is non-empty and not seen before. -/
def dedupGo (seen : List String) : List Post → List Post
  | [] => []
  | p :: ps =>
      if p.id ≠ "" ∧ p.id ∉ seen then p :: dedupGo (p.id :: seen) ps
      else dedupGo seen ps

def dedupById (l : List Post) : List Post := dedupGo [] l

/-- The snapshot built by one successful refresh episode
(`dashboard.run_scraper`): sort descending by likes, dedup by id (tagging each
kept post via `is_competition_post`), then re-apply the broad keyword
detection (`detect_competition`, a no-op here since the flag was just set). -/
def buildSnapshot (raw : List Post) : List Post :=
  (dedupById (sortByLikesDesc raw)).map
    (fun p => detect_competition { p with is_competition := some (is_competition_post p) })

/-! ## Timestamp normalization (`aws_scraper.format_timestamp`)

The numeric path of `format_timestamp`: a numeric epoch value is divided by
1000 exactly when it exceeds `1e12`, and the result is handed to the
date formatter.  We model the numeric value passed to the formatter as a
rational (`ℚ`), so division is the exact value Python computes for the
magnitudes of interest; equal normalized instants render to equal strings. -/

/-- The disambiguation step of `format_timestamp` on a numeric epoch value. -/
def normEpoch (v : ℚ) : ℚ := if v > 10 ^ 12 then v / 1000 else v

/-- `format_timestamp` on the numeric path: `none` models a missing timestamp
(the `"N/A"` sentinel); `some v` is normalized by magnitude. -/
def format_timestamp : Option ℚ → Option ℚ
  | none => none
  | some v => some (normEpoch v)

/-! ## Feed fetch retry behaviour (`aws_scraper.fetch_feed_content`)

One call of `fetch_feed_content` interacts with the network through
`session.post`; we model the network as the finite list of responses it will
serve to the successive attempts.  A 2xx response yields the parsed body
(abstracted to a `Nat`); a 429 sleeps 5 seconds and recurses on the remaining
responses; any other HTTP error or a request exception returns `None`
immediately.  The outer `Option` marks whether the call completed within the
supplied responses: `none` means every supplied response was a 429 and the
code is *still retrying* (an endless 429 stream never returns). -/

inductive FeedResp where
  | ok (body : Nat)
  | http (code : Nat)
  | netErr
  deriving DecidableEq

/-- `fetch_feed_content`, returning `(completion, secondsSlept)`:
`(some (some b), d)` — returned body `b` after sleeping `d` seconds;
`(some none, d)` — returned Python `None` (non-429 failure);
`(none, d)` — every supplied response was consumed by 429 retries. -/
def fetch_feed_content : List FeedResp → Option (Option Nat) × Nat
  | [] => (none, 0)
  | .ok b :: _ => (some (some b), 0)
  | .http c :: rest =>
      if c = 429 then
        let r := fetch_feed_content rest
        (r.1, r.2 + 5)
      else (some none, 0)
  | .netErr :: _ => (some none, 0)

/-! ## Tracked-post neighbourhood (`dashboard.api_data`, lines 217–262) -/

/-- The highlight test of `api_data`'s loop: the (1-based) first post for which
this holds becomes the tracked post. -/
def isHighlight (p : Post) : Bool :=
  HIGHLIGHT_POST_URI ≠ "" &&
    ((p.id ≠ "" && pyIn (lowerS p.id) (lowerS HIGHLIGHT_POST_URI)) ||
     (p.uri ≠ "" && pyIn (lowerS p.uri) (lowerS HIGHLIGHT_POST_URI)) ||
     (pyIn "aideas" (lowerS p.title) && pyIn "transforming healthcare" (lowerS p.title)))

/-- `likes_count` of the post at 0-based index `i` (`posts[i]` in the source;
out-of-range reads do not occur on the paths modelled). -/
def likesAt (posts : List Post) (i : Nat) : Nat :=
  ((posts[i]?).map Post.likes_count).getD 0

/-- The `likes_to_climb` value reported by `api_data`: `0` when no post passes
the highlight test or the tracked post is at rank 1, else
`max(0, above.likes_count - tracked.likes_count + 1)` where `above` is the
post one rank higher. -/
def likes_to_climb (posts : List Post) : Int :=
  match posts.findIdx? isHighlight with
  | none => 0
  | some i =>
      if 0 < i then
        max 0 ((likesAt posts (i - 1) : Int) - (likesAt posts i : Int) + 1)
      else 0

/-! ## Refresh scheduler (`dashboard.run_scraper` / `dashboard.api_refresh`)

The shared state guarded by `data_lock`.  All reads/writes of `is_scraping`,
`posts` and `error` in the source happen inside `with data_lock:` blocks, so
each such block is one atomic step. -/

structure DashState where
  posts : List Post
  is_scraping : Bool
  error : Option String
  deriving DecidableEq

/-- What the fetch phase of one episode produced: either the combined raw list
gathered from the API / Selenium fallback, or an exception message. -/
inductive FetchOutcome where
  | raw (posts : List Post)
  | exc (msg : String)

def noPostsError : String :=
  "Scraper returned no posts. The site might be temporarily unavailable."

/-- One whole `run_scraper` call, given the outcome of its fetch phase.  The
entry guard returns immediately when a scrape is already in flight; otherwise
the flag is set, the episode runs, and the `finally` block clears the flag.
On a non-empty raw batch the snapshot is rebuilt and published with the error
cleared; on an empty batch or an exception only `error` is set. -/
def run_scraper (s : DashState) (outcome : FetchOutcome) : DashState :=
  if s.is_scraping then s
  else
    let s1 : DashState := { s with is_scraping := true, error := none }
    let s2 : DashState :=
      match outcome with
      | .raw raw =>
          if raw ≠ [] then
            { s1 with posts := buildSnapshot raw, error := none }
          else
            { s1 with error := some noPostsError }
      | .exc msg => { s1 with error := some msg }
    { s2 with is_scraping := false }

inductive RefreshResp where
  | already_running
  | started
  deriving DecidableEq

/-- `api_refresh`: under the lock, an in-flight scrape makes the trigger
return `already_running` without starting a thread; otherwise a `run_scraper`
thread is started (the `Bool` records whether one was started). -/
def api_refresh (s : DashState) : RefreshResp × Bool :=
  if s.is_scraping then (.already_running, false) else (.started, true)

/-! A small transition system for the in-flight-episode count.  `inFlight`
counts `run_scraper` calls that passed the entry guard and have not yet run
their `finally` block.  The guard check-and-set and the `finally` reset are
each one lock-protected atomic step. -/

structure SchedState where
  dash : DashState
  inFlight : Nat
  deriving DecidableEq

/-- Atomic steps of the scheduler: a spawned `run_scraper` thread hitting its
entry guard (passing or bouncing off), and an in-flight episode finishing. -/
inductive SchedStep : SchedState → SchedState → Prop where
  | enter (s : SchedState) (h : s.dash.is_scraping = false) :
      SchedStep s
        { dash := { s.dash with is_scraping := true, error := none },
          inFlight := s.inFlight + 1 }
  | enterRejected (s : SchedState) (h : s.dash.is_scraping = true) :
      SchedStep s s
  | work (s : SchedState) (d : DashState) (h : 1 ≤ s.inFlight)
      (hd : d.is_scraping = true) :
      SchedStep s { dash := d, inFlight := s.inFlight }
  | finish (s : SchedState) (d : DashState) (h : 1 ≤ s.inFlight)
      (hd : d.is_scraping = false) :
      SchedStep s { dash := d, inFlight := s.inFlight - 1 }

/-- Reachability from the initial state (no scrape in flight). -/
inductive SchedReach : SchedState → Prop where
  | init (d : DashState) (h : d.is_scraping = false) :
      SchedReach { dash := d, inFlight := 0 }
  | step {s t : SchedState} : SchedReach s → SchedStep s t → SchedReach t

/-- The post list served by `dashboard.api_data`: the stored posts with every
competition flag filled in (`posts = [detect_competition(p) for p in posts]`). -/
def api_data_posts (s : DashState) : List Post := s.posts.map detect_competition

/-! ## Spec-side definitions for comparison

These do not embed source code; each follows the words of the specification
and is compared against the corresponding definition above. -/

/-- The competition classifier as the spec describes it: true iff the post's
`id` **or `uri`** is in a substring relation with the tracked-post locator in
either direction, or else the case-folded title contains a configured keyword
case-insensitively. -/
def specIsCompetition (p : Post) : Bool :=
  (pyIn (lowerS p.id) (lowerS HIGHLIGHT_POST_URI) ||
   pyIn (lowerS HIGHLIGHT_POST_URI) (lowerS p.id) ||
   pyIn (lowerS p.uri) (lowerS HIGHLIGHT_POST_URI) ||
   pyIn (lowerS HIGHLIGHT_POST_URI) (lowerS p.uri)) ||
  COMPETITION_KEYWORDS.any (fun kw => pyIn (lowerS kw) (lowerS p.title))

/-- Deduplication as the spec words it: keep each non-empty id's *first
occurrence* in the order given, dropping every later post with an id already
kept.  Compared with `dedupById` (the loop actually in the source). -/
def firstOccDedup : List Post → List Post
  | [] => []
  | p :: ps =>
      if p.id = "" then firstOccDedup ps
      else p :: firstOccDedup (ps.filter (fun q => q.id ≠ p.id))
termination_by l => l.length
decreasing_by
  all_goals simp_wf
  all_goals
    first
      | omega
      | exact Nat.lt_succ_of_le (List.length_filter_le _ _)

/-! ## Concrete scenario inputs from the spec's testable properties -/

/-- The batch `[{id:"a",likes:50},{id:"b",likes:90},{id:"a",likes:50}]`; the
two `"a"` records get distinct titles so that which occurrence survives is
observable. -/
def c8Input : List Post :=
  [{ id := "a", title := "first", uri := "", likes_count := 50 },
   { id := "b", title := "second", uri := "", likes_count := 90 },
   { id := "a", title := "third", uri := "", likes_count := 50 }]

/-- A snapshot of five posts sorted descending, with the tracked post (its id
is the key segment of the locator, so the highlight test matches it) at rank 5
with 30 likes under a rank-4 post with 35 likes. -/
def c6Posts : List Post :=
  [{ id := "p1", title := "", uri := "", likes_count := 60 },
   { id := "p2", title := "", uri := "", likes_count := 50 },
   { id := "p3", title := "", uri := "", likes_count := 40 },
   { id := "p4", title := "", uri := "", likes_count := 35 },
   { id := "3AAMRb7lRzAJnleldfYBBtfM1WG", title := "", uri := "", likes_count := 30 }]

/-- A post whose `uri` is exactly the tracked-post locator but whose `id` and
title match nothing (the letter `q` does not occur in the locator or in any
keyword). -/
def c2CePost : Post :=
  { id := "q", title := "q", uri := HIGHLIGHT_POST_URI, likes_count := 0 }

/-! ## Helper lemmas: the stable sort -/

theorem insLikes_perm (x : Post) (l : List Post) :
    List.Perm (insLikes x l) (x :: l) := by
  induction l with
  | nil => exact List.Perm.refl _
  | cons y ys ih =>
      unfold insLikes
      by_cases h : y.likes_count ≤ x.likes_count
      · rw [if_pos h]
      · rw [if_neg h]
        exact (ih.cons y).trans (List.Perm.swap x y ys)

theorem mem_insLikes {p x : Post} {l : List Post} :
    p ∈ insLikes x l ↔ p = x ∨ p ∈ l := by
  rw [(insLikes_perm x l).mem_iff, List.mem_cons]

theorem pairwise_insLikes (x : Post) {l : List Post}
    (h : l.Pairwise (fun a b => b.likes_count ≤ a.likes_count)) :
    (insLikes x l).Pairwise (fun a b => b.likes_count ≤ a.likes_count) := by
  induction l with
  | nil => simp [insLikes]
  | cons y ys ih =>
      unfold insLikes
      by_cases hxy : y.likes_count ≤ x.likes_count
      · simp only [hxy, if_pos]
        refine List.Pairwise.cons ?_ h
        intro z hz
        rcases List.mem_cons.1 hz with rfl | hz
        · exact hxy
        · exact le_trans (List.rel_of_pairwise_cons h hz) hxy
      · simp only [hxy, if_neg, not_false_iff]
        refine List.Pairwise.cons ?_ (ih h.tail)
        intro z hz
        rcases mem_insLikes.1 hz with rfl | hz
        · exact le_of_lt (lt_of_not_le hxy)
        · exact List.rel_of_pairwise_cons h hz

theorem pairwise_sortByLikesDesc (l : List Post) :
    (sortByLikesDesc l).Pairwise (fun a b => b.likes_count ≤ a.likes_count) := by
  induction l with
  | nil => simp [sortByLikesDesc]
  | cons x xs ih => exact pairwise_insLikes x ih

/-- Stability of the insertion step, phrased through the equal-key sublist:
filtering `insLikes x l` to one likes value either prepends `x` (when `x` has
that value — the skipped prefix is strictly larger) or leaves the filter of
`l` unchanged. -/
theorem filter_insLikes (x : Post) (l : List Post) (v : Nat) :
    (insLikes x l).filter (fun p => p.likes_count == v) =
      if x.likes_count = v then x :: l.filter (fun p => p.likes_count == v)
      else l.filter (fun p => p.likes_count == v) := by
  induction l with
  | nil =>
      by_cases hx : x.likes_count = v <;>
        simp [insLikes, List.filter_cons, hx]
  | cons y ys ih =>
      unfold insLikes
      by_cases hxy : y.likes_count ≤ x.likes_count
      · rw [if_pos hxy]
        by_cases hx : x.likes_count = v <;>
          simp [List.filter_cons, hx]
      · rw [if_neg hxy]
        simp only [List.filter_cons, ih]
        by_cases hx : x.likes_count = v
        · have hy : ¬ (y.likes_count = v) := by omega
          simp [hx, hy, List.filter_cons]
        · simp [hx, List.filter_cons]

/-- Stability of the sort: for every likes value, the posts carrying that
value appear in the output in exactly their input order. -/
theorem filter_sortByLikesDesc (l : List Post) (v : Nat) :
    (sortByLikesDesc l).filter (fun p => p.likes_count == v) =
      l.filter (fun p => p.likes_count == v) := by
  induction l with
  | nil => rfl
  | cons x xs ih =>
      show (insLikes x (sortByLikesDesc xs)).filter _ = _
      rw [filter_insLikes, List.filter_cons, ih]
      by_cases hx : x.likes_count = v <;> simp [hx]

/-! ## Helper lemmas: deduplication -/

theorem dedupGo_sublist (seen : List String) (l : List Post) :
    (dedupGo seen l).Sublist l := by
  induction l generalizing seen with
  | nil => simp [dedupGo]
  | cons p ps ih =>
      unfold dedupGo
      by_cases h : p.id ≠ "" ∧ p.id ∉ seen
      · rw [if_pos h]; exact (ih (p.id :: seen)).cons₂ p
      · rw [if_neg h]; exact (ih seen).cons p

theorem mem_dedupGo {p : Post} {seen : List String} {l : List Post}
    (h : p ∈ dedupGo seen l) : p.id ∉ seen ∧ p.id ≠ "" ∧ p ∈ l := by
  induction l generalizing seen with
  | nil => simp [dedupGo] at h
  | cons q qs ih =>
      unfold dedupGo at h
      by_cases hq : q.id ≠ "" ∧ q.id ∉ seen
      · rw [if_pos hq] at h
        rcases List.mem_cons.1 h with rfl | h
        · exact ⟨hq.2, hq.1, List.mem_cons_self _ _⟩
        · obtain ⟨h1, h2, h3⟩ := ih h
          exact ⟨fun hs => h1 (List.mem_cons_of_mem _ hs), h2,
            List.mem_cons_of_mem _ h3⟩
      · rw [if_neg hq] at h
        obtain ⟨h1, h2, h3⟩ := ih h
        exact ⟨h1, h2, List.mem_cons_of_mem _ h3⟩

theorem pairwise_ids_dedupGo (seen : List String) (l : List Post) :
    (dedupGo seen l).Pairwise (fun a b => a.id ≠ b.id) := by
  induction l generalizing seen with
  | nil => simp [dedupGo]
  | cons p ps ih =>
      unfold dedupGo
      by_cases h : p.id ≠ "" ∧ p.id ∉ seen
      · rw [if_pos h]
        refine List.Pairwise.cons ?_ (ih (p.id :: seen))
        intro q hq hpq
        exact (mem_dedupGo hq).1 (by rw [← hpq]; exact List.mem_cons_self _ _)
      · rw [if_neg h]; exact ih seen

/-- The source's dedup loop computes exactly "first occurrence of each
non-empty id wins". -/
theorem dedupGo_eq_firstOccDedup (l : List Post) : ∀ seen : List String,
    dedupGo seen l = firstOccDedup (l.filter (fun p => p.id ∉ seen)) := by
  induction l with
  | nil => intro seen; simp [dedupGo, firstOccDedup]
  | cons p ps ih =>
      intro seen
      unfold dedupGo
      rw [List.filter_cons]
      by_cases hseen : p.id ∉ seen
      · rw [if_pos (show decide (p.id ∉ seen) = true from by simpa using hseen),
          firstOccDedup.eq_2]
        by_cases hid : p.id = ""
        · rw [if_pos hid,
            if_neg (show ¬(p.id ≠ "" ∧ p.id ∉ seen) from fun hc => hc.1 hid),
            ih seen]
        · rw [if_neg hid, if_pos (⟨hid, hseen⟩ : p.id ≠ "" ∧ p.id ∉ seen),
            ih (p.id :: seen), List.filter_filter]
          congr 2
          apply List.filter_congr
          intro q _
          by_cases h1 : q.id = p.id <;> by_cases h2 : q.id ∈ seen <;>
            simp [h1, h2]
      · rw [if_neg (show ¬(p.id ≠ "" ∧ p.id ∉ seen) from fun hc => hseen hc.2),
          if_neg (show ¬(decide (p.id ∉ seen) = true) from by simpa using hseen)]
        exact ih seen

theorem dedupById_eq_firstOccDedup (l : List Post) :
    dedupById l = firstOccDedup l := by
  rw [dedupById, dedupGo_eq_firstOccDedup l []]
  congr 1
  exact List.filter_eq_self.2 (fun a _ => by simp)

/-- The per-post tagging applied between dedup and publication changes only
the `is_competition` flag. -/
theorem snapTag_fields (p : Post) :
    (detect_competition
        { p with is_competition := some (is_competition_post p) }).id = p.id ∧
    (detect_competition
        { p with is_competition := some (is_competition_post p) }).likes_count
      = p.likes_count :=
  ⟨rfl, rfl⟩

/-- C1: For every batch of raw posts, the snapshot built by a refresh episode
(sort descending by `likes_count`, then deduplicate by `id`) contains no two
posts with the same `id`, and the `likes_count` values of its posts are
non-increasing in rank order. -/
theorem c1_buildSnapshot_unique_ids_sorted (raw : List Post) :
    (buildSnapshot raw).Pairwise (fun a b => a.id ≠ b.id) ∧
    (buildSnapshot raw).Pairwise (fun a b => b.likes_count ≤ a.likes_count) := by
  constructor
  · rw [buildSnapshot, List.pairwise_map]
    refine (pairwise_ids_dedupGo [] (sortByLikesDesc raw)).imp ?_
    intro a b h
    rw [(snapTag_fields a).1, (snapTag_fields b).1]
    exact h
  · rw [buildSnapshot, List.pairwise_map]
    refine (List.Pairwise.sublist (dedupGo_sublist [] (sortByLikesDesc raw))
      (pairwise_sortByLikesDesc raw)).imp ?_
    intro a b h
    rw [(snapTag_fields a).2, (snapTag_fields b).2]
    exact h

/-- C8: The ranking sort is stable (posts of any fixed `likes_count` appear in
the output in exactly their input order), deduplication keeps the first
occurrence of each non-empty id encountered in sorted order, and the batch
`[a(50,"first"), b(90,"second"), a(50,"third")]` yields exactly
`[b at rank 1 with 90 likes, a at rank 2 with 50 likes]` with the first `a`
record surviving. -/
theorem c8_stable_sort_first_occurrence_dedup :
    (∀ (l : List Post) (v : Nat),
        (sortByLikesDesc l).filter (fun p => p.likes_count == v) =
          l.filter (fun p => p.likes_count == v)) ∧
    (∀ l : List Post, dedupById l = firstOccDedup l) ∧
    (buildSnapshot c8Input).map (fun p => (p.id, p.likes_count, p.title)) =
      [("b", 90, "second"), ("a", 50, "first")] :=
  ⟨filter_sortByLikesDesc, dedupById_eq_firstOccDedup, by decide⟩

/-- C9: A post whose `id` is missing or empty is always classified as a
competition post, whatever its title and uri: the empty string is a Python
substring of the non-empty tracked-post locator. -/
theorem c9_empty_id_always_competition
    (title uri : String) (lk : Nat) (ic : Option Bool) :
    is_competition_post
      { id := "", title := title, uri := uri, likes_count := lk,
        is_competition := ic } = true := by
  have hc : (decide (HIGHLIGHT_POST_URI ≠ "") &&
      (pyIn (lowerS HIGHLIGHT_POST_URI) (lowerS "") ||
       pyIn "" HIGHLIGHT_POST_URI)) = true := by decide
  simp only [is_competition_post, hc, if_true]

/-- C10: Every post published by a successful refresh episode has a non-empty
id: records with a missing/empty id are dropped by the dedup step, both as a
property of `buildSnapshot` and of the state published by `run_scraper`. -/
theorem c10_published_ids_nonempty :
    (∀ (raw : List Post) (p : Post), p ∈ buildSnapshot raw → p.id ≠ "") ∧
    (∀ (s : DashState) (raw : List Post) (p : Post),
        s.is_scraping = false → raw ≠ [] →
        p ∈ (run_scraper s (.raw raw)).posts → p.id ≠ "") := by
  have h1 : ∀ (raw : List Post) (p : Post), p ∈ buildSnapshot raw → p.id ≠ "" := by
    intro raw p hp
    rw [buildSnapshot, List.mem_map] at hp
    obtain ⟨q, hq, rfl⟩ := hp
    rw [(snapTag_fields q).1]
    exact (mem_dedupGo hq).2.1
  refine ⟨h1, ?_⟩
  intro s raw p hs hraw hp
  simp only [run_scraper, hs, Bool.false_eq_true, if_false, hraw,
    ne_eq, not_false_eq_true, if_true] at hp
  exact h1 raw p hp

/-! ## C2: the competition classifier vs. its specification -/

/-- C2 (counterexample): the spec-side classifier says a post whose `uri` is
exactly the tracked-post locator is a competition post, but the code returns
false for it — `is_competition_post` never consults the `uri` field (its
variable named `uri` holds the `id` field). -/
theorem c2_counterexample :
    specIsCompetition c2CePost = true ∧ is_competition_post c2CePost = false := by
  decide

/-- C2 (amended): the classifier returns true iff the lower-cased locator is a
substring of the lower-cased `id`, or the verbatim `id` is a (case-sensitive)
substring of the locator, or the case-folded title contains some configured
keyword; the `uri` field plays no role. -/
theorem c2_amended_classifier (p : Post) :
    is_competition_post p = true ↔
      (pyIn (lowerS HIGHLIGHT_POST_URI) (lowerS p.id) = true ∨
       pyIn p.id HIGHLIGHT_POST_URI = true ∨
       ∃ kw ∈ COMPETITION_KEYWORDS, pyIn (lowerS kw) (lowerS p.title) = true) := by
  have hne : HIGHLIGHT_POST_URI ≠ "" := by decide
  cases hA : pyIn (lowerS HIGHLIGHT_POST_URI) (lowerS p.id) <;>
    cases hB : pyIn p.id HIGHLIGHT_POST_URI <;>
      simp [is_competition_post, hA, hB, hne, List.any_eq_true]

/-! ## C3: a failed refresh episode preserves the published posts -/

/-- C3: whatever state the dashboard was in before the episode, a refresh that
raises an exception or yields no posts leaves the stored and served post list
unchanged and records only an error message. -/
theorem c3_failed_refresh_preserves_posts (s : DashState) (msg : String)
    (hs : s.is_scraping = false) :
    ((run_scraper s (.raw [])).posts = s.posts ∧
     api_data_posts (run_scraper s (.raw [])) = api_data_posts s ∧
     (run_scraper s (.raw [])).error = some noPostsError) ∧
    ((run_scraper s (.exc msg)).posts = s.posts ∧
     api_data_posts (run_scraper s (.exc msg)) = api_data_posts s ∧
     (run_scraper s (.exc msg)).error = some msg) := by
  simp [run_scraper, api_data_posts, hs]

theorem c3_witness :
    (run_scraper ⟨[{ id := "d", title := "t", uri := "", likes_count := 3 }],
        false, none⟩ (FetchOutcome.exc "boom")).posts =
      [{ id := "d", title := "t", uri := "", likes_count := 3 }] ∧
    (run_scraper ⟨[{ id := "d", title := "t", uri := "", likes_count := 3 }],
        false, none⟩ (FetchOutcome.exc "boom")).error = some "boom" :=
  ⟨(c3_failed_refresh_preserves_posts _ "boom" rfl).2.1,
   (c3_failed_refresh_preserves_posts _ "boom" rfl).2.2.2⟩

/-! ## C4: at most one refresh episode in flight -/

theorem schedInv {st : SchedState} (h : SchedReach st) :
    st.inFlight ≤ 1 ∧ (st.dash.is_scraping = false → st.inFlight = 0) := by
  induction h with
  | init d hd => exact ⟨Nat.zero_le 1, fun _ => rfl⟩
  | step _ hstep ih =>
      cases hstep with
      | enter hfalse =>
          have h0 := ih.2 hfalse
          refine ⟨?_, ?_⟩
          · simp only [SchedState.inFlight]; omega
          · intro hcontra; simp at hcontra
      | enterRejected htrue => exact ih
      | work d hfl hd =>
          refine ⟨?_, ?_⟩
          · simpa using ih.1
          · intro hcontra; simp [hd] at hcontra
      | finish d hfl hd =>
          have h1 := ih.1
          refine ⟨?_, fun _ => ?_⟩ <;> simp only [SchedState.inFlight] <;> omega

/-- C4: a refresh trigger arriving while `is_scraping` is true returns the
"already running" signal without starting a fetch thread, and along every
reachable execution at most one refresh episode is in flight. -/
theorem c4_single_flight :
    (∀ s : DashState, s.is_scraping = true →
        api_refresh s = (.already_running, false)) ∧
    (∀ st : SchedState, SchedReach st → st.inFlight ≤ 1) := by
  refine ⟨?_, ?_⟩
  · intro s hs; simp [api_refresh, hs]
  · intro st h; exact (schedInv h).1

theorem c4_witness :
    api_refresh ⟨[], true, none⟩ = (RefreshResp.already_running, false) ∧
    ({ dash := ⟨[], false, none⟩, inFlight := 0 } : SchedState).inFlight ≤ 1 :=
  ⟨c4_single_flight.1 ⟨[], true, none⟩ rfl,
   c4_single_flight.2 _ (SchedReach.init ⟨[], false, none⟩ rfl)⟩

/-! ## C5: the retry policy of `fetch_feed_content` -/

/-- C5 (counterexample): ten consecutive 429 responses are all retried and the
eleventh attempt's success is returned — no error surfaces after any fixed
small number of retries — and a stream of fifty 429s leaves the call still
retrying (50 × 5 s slept), so no fixed retry bound exists. -/
theorem c5_counterexample :
    fetch_feed_content (List.replicate 10 (.http 429) ++ [.ok 7]) =
      (some (some 7), 50) ∧
    fetch_feed_content (List.replicate 50 (.http 429)) = (none, 250) := by
  decide

theorem fetch_replicate_429 (n : Nat) (rs : List FeedResp) :
    fetch_feed_content (List.replicate n (.http 429) ++ rs) =
      ((fetch_feed_content rs).1, (fetch_feed_content rs).2 + 5 * n) := by
  induction n with
  | zero => simp
  | succ n ih =>
      rw [List.replicate_succ, List.cons_append]
      simp only [fetch_feed_content, if_pos rfl, ih]
      refine Prod.ext rfl ?_
      simp; omega

/-- C5 (amended): a 2xx response returns its body at once; a network error or
a non-429 HTTP error is never retried and immediately returns `None`; a 429
is retried after a fixed 5-second sleep with **no upper bound on the number of
retries**, so the call returns the first non-429 response's result and never
completes on an all-429 stream. -/
theorem c5_amended_retry_policy :
    (∀ (b : Nat) (rs : List FeedResp),
        fetch_feed_content (.ok b :: rs) = (some (some b), 0)) ∧
    (∀ rs : List FeedResp,
        fetch_feed_content (.netErr :: rs) = (some none, 0)) ∧
    (∀ (c : Nat) (rs : List FeedResp), c ≠ 429 →
        fetch_feed_content (.http c :: rs) = (some none, 0)) ∧
    (∀ (n b : Nat) (rs : List FeedResp),
        fetch_feed_content (List.replicate n (.http 429) ++ .ok b :: rs) =
          (some (some b), 5 * n)) ∧
    (∀ n : Nat,
        fetch_feed_content (List.replicate n (.http 429)) = (none, 5 * n)) := by
  refine ⟨fun b rs => rfl, fun rs => rfl, ?_, ?_, ?_⟩
  · intro c rs hc
    simp [fetch_feed_content, hc]
  · intro n b rs
    rw [fetch_replicate_429]
    simp [fetch_feed_content]
  · intro n
    rw [show List.replicate n (FeedResp.http 429) =
        List.replicate n (FeedResp.http 429) ++ [] from (List.append_nil _).symm,
      fetch_replicate_429]
    simp [fetch_feed_content]

theorem c5_witness :
    fetch_feed_content [.http 500] = (some none, 0) :=
  c5_amended_retry_policy.2.2.1 500 [] (by decide)

/-! ## C6: likes needed to overtake the next rank -/

theorem likesAt_of_lt {posts : List Post} {i : Nat} (h : i < posts.length) :
    likesAt posts i = (posts.get ⟨i, h⟩).likes_count := by
  rw [likesAt, List.getElem?_eq_getElem h, List.get_eq_getElem]
  rfl

/-- C6: on a snapshot sorted non-increasingly by likes, if the tracked post is
found at 0-based index `i > 0` then `likes_to_climb` is exactly
`(likes of the post one rank above) − (tracked post's likes) + 1`; it is `0`
when the tracked post is absent or at rank 1; and on the concrete sorted
snapshot with the tracked post at rank 5 with 30 likes under a rank-4 post
with 35 likes it equals 6. -/
theorem c6_likes_to_climb :
    (∀ (posts : List Post) (i : Nat),
        posts.Pairwise (fun a b => b.likes_count ≤ a.likes_count) →
        posts.findIdx? isHighlight = some i → 0 < i →
        likes_to_climb posts =
          (likesAt posts (i - 1) : Int) - (likesAt posts i : Int) + 1) ∧
    (∀ posts : List Post, posts.findIdx? isHighlight = none →
        likes_to_climb posts = 0) ∧
    (∀ posts : List Post, posts.findIdx? isHighlight = some 0 →
        likes_to_climb posts = 0) ∧
    likes_to_climb c6Posts = 6 := by
  refine ⟨?_, ?_, ?_, by decide⟩
  · intro posts i hsort hfind hi
    have hlen : i < posts.length :=
      (List.findIdx?_eq_some_iff_findIdx_eq.1 hfind).1
    have hcast : (likesAt posts i : Int) ≤ (likesAt posts (i - 1) : Int) := by
      rw [likesAt_of_lt hlen, likesAt_of_lt (show i - 1 < posts.length by omega)]
      have hle :=
        List.pairwise_iff_getElem.1 hsort (i - 1) i (by omega) hlen (by omega)
      simp only [List.get_eq_getElem]
      exact_mod_cast hle
    rw [likes_to_climb, hfind]
    simp only [hi, if_true]
    omega
  · intro posts hfind
    rw [likes_to_climb, hfind]
  · intro posts hfind
    rw [likes_to_climb, hfind]
    simp

theorem c6_witness :
    likes_to_climb c6Posts =
      (likesAt c6Posts 3 : Int) - (likesAt c6Posts 4 : Int) + 1 :=
  c6_likes_to_climb.1 c6Posts 4 (by decide) (by decide) (by decide)

/-! ## C7: seconds/milliseconds disambiguation in timestamp normalization -/

/-- C7 (counterexample): the seconds form `10^6` and the milliseconds form
`10^9` of the same instant normalize to *different* values — `10^9` does not
exceed the `10^12` threshold, so it is (mis)read as seconds. -/
theorem c7_counterexample :
    format_timestamp (some (1000000 * 1000)) ≠ format_timestamp (some 1000000) := by
  norm_num [format_timestamp, normEpoch]

/-- C7 (amended): a numeric epoch value is treated as milliseconds (divided by
1000) exactly when it exceeds `10^12` and as seconds otherwise; consequently
the seconds form `s` and the milliseconds form `1000·s` of one instant
normalize identically *provided* `1000·s > 10^12` and `s ≤ 10^12`; in
particular `1700000000` and `1700000000000` agree. -/
theorem c7_timestamp_normalization :
    (∀ v : ℚ, 10 ^ 12 < v → format_timestamp (some v) = some (v / 1000)) ∧
    (∀ v : ℚ, v ≤ 10 ^ 12 → format_timestamp (some v) = some v) ∧
    (∀ s : ℚ, 10 ^ 12 < 1000 * s → s ≤ 10 ^ 12 →
        format_timestamp (some (1000 * s)) = format_timestamp (some s)) ∧
    format_timestamp (some 1700000000000) = format_timestamp (some 1700000000) := by
  refine ⟨?_, ?_, ?_, ?_⟩
  · intro v hv; simp [format_timestamp, normEpoch, hv]
  · intro v hv; simp [format_timestamp, normEpoch, not_lt.2 hv]
  · intro s h1 h2
    simp only [format_timestamp, normEpoch, if_pos h1, not_lt.2 h2, if_neg,
      if_false]
    rw [mul_comm, mul_div_assoc]
    norm_num
  · norm_num [format_timestamp, normEpoch]

theorem c7_witness :
    format_timestamp (some 1700000000000) = some (1700000000000 / 1000) ∧
    format_timestamp (some (1000 * 1700000000)) = format_timestamp (some 1700000000) :=
  ⟨c7_timestamp_normalization.1 1700000000000 (by norm_num),
   c7_timestamp_normalization.2.2.1 1700000000 (by norm_num) (by norm_num)⟩

theorem c10_witness :
    ({ id := "a", title := "t", uri := "", likes_count := 5,
       is_competition := some true } : Post).id ≠ "" :=
  c10_published_ids_nonempty.1
    [{ id := "a", title := "t", uri := "", likes_count := 5 }]
    { id := "a", title := "t", uri := "", likes_count := 5,
      is_competition := some true }
    (by decide)

end WebScrap
